import Mathlib

/-!
Shallow embedding of `src/wb_paid_storage_sync.py` (wb-paid-storage-sync).

Dates are modelled as day numbers (`Nat`): `datetime.date` forms a linear
order with `+ timedelta(days=k)` as `+ k`, which is all the script uses.
JSON values returned by `r.json()` are modelled by `JVal`; Python `None`
(e.g. the default of `dict.get`) is identified with JSON `null`, exactly as
in the script, which never distinguishes the two.  Python duck-typed values
flowing through the script are `JVal`s as well.

Network effects are modelled by passing the sequence of HTTP responses the
remote side would produce as an explicit argument (`Nat → Resp`, indexed by
request number); `time.sleep` calls are collected into an explicit trace so
that theorems can talk about which delays were performed, and raised
exceptions become `Except` errors.
-/

namespace WbSync

/-- JSON-like values (results of `r.json()`), also standing for the Python
values the script manipulates.  Numeric payload values are modelled as
integers; no verified property depends on the numeric representation. -/
inductive JVal where
  | null
  | bool (b : Bool)
  | num (n : Int)
  | str (s : String)
  | arr (xs : List JVal)
  | obj (fields : List (String × JVal))

mutual

/-- Structural equality test for `JVal`. -/
def JVal.beq : JVal → JVal → Bool
  | .null, .null => true
  | .bool a, .bool b => a == b
  | .num a, .num b => a == b
  | .str a, .str b => a == b
  | .arr xs, .arr ys => JVal.beqList xs ys
  | .obj xs, .obj ys => JVal.beqObj xs ys
  | _, _ => false

/-- Equality test for lists of `JVal`. -/
def JVal.beqList : List JVal → List JVal → Bool
  | [], [] => true
  | x :: xs, y :: ys => JVal.beq x y && JVal.beqList xs ys
  | _, _ => false

/-- Equality test for association lists of `JVal`. -/
def JVal.beqObj : List (String × JVal) → List (String × JVal) → Bool
  | [], [] => true
  | (k, x) :: xs, (l, y) :: ys => k == l && JVal.beq x y && JVal.beqObj xs ys
  | _, _ => false

end

mutual

theorem JVal.beq_iff : ∀ a b : JVal, JVal.beq a b = true ↔ a = b
  | .null, .null => by simp [JVal.beq]
  | .bool a, .bool b => by simp [JVal.beq]
  | .num a, .num b => by simp [JVal.beq]
  | .str a, .str b => by simp [JVal.beq]
  | .arr xs, .arr ys => by simp [JVal.beq, JVal.beqList_iff xs ys]
  | .obj xs, .obj ys => by simp [JVal.beq, JVal.beqObj_iff xs ys]
  | .null, .bool _ | .null, .num _ | .null, .str _ | .null, .arr _ | .null, .obj _
  | .bool _, .null | .bool _, .num _ | .bool _, .str _ | .bool _, .arr _ | .bool _, .obj _
  | .num _, .null | .num _, .bool _ | .num _, .str _ | .num _, .arr _ | .num _, .obj _
  | .str _, .null | .str _, .bool _ | .str _, .num _ | .str _, .arr _ | .str _, .obj _
  | .arr _, .null | .arr _, .bool _ | .arr _, .num _ | .arr _, .str _ | .arr _, .obj _
  | .obj _, .null | .obj _, .bool _ | .obj _, .num _ | .obj _, .str _ | .obj _, .arr _ => by
      simp [JVal.beq]

theorem JVal.beqList_iff : ∀ xs ys : List JVal, JVal.beqList xs ys = true ↔ xs = ys
  | [], [] => by simp [JVal.beqList]
  | x :: xs, y :: ys => by
      simp [JVal.beqList, JVal.beq_iff x y, JVal.beqList_iff xs ys]
  | [], _ :: _ => by simp [JVal.beqList]
  | _ :: _, [] => by simp [JVal.beqList]

theorem JVal.beqObj_iff : ∀ xs ys : List (String × JVal), JVal.beqObj xs ys = true ↔ xs = ys
  | [], [] => by simp [JVal.beqObj]
  | (k, x) :: xs, (l, y) :: ys => by
      simp [JVal.beqObj, JVal.beq_iff x y, JVal.beqObj_iff xs ys, and_assoc]
  | [], _ :: _ => by simp [JVal.beqObj]
  | _ :: _, [] => by simp [JVal.beqObj]

end

instance : BEq JVal := ⟨JVal.beq⟩

instance : LawfulBEq JVal where
  eq_of_beq h := (JVal.beq_iff _ _).1 h
  rfl := (JVal.beq_iff _ _).2 rfl

instance : DecidableEq JVal := fun a b =>
  decidable_of_iff (JVal.beq a b = true) (JVal.beq_iff a b)

/-! ### Script constants (lines 22-28 of the source) -/

def MAX_DAYS : Nat := 8
def BATCH_SIZE : Nat := 1000
def STATUS_POLL_STEP_MIN : Nat := 5
def STATUS_POLL_STEP_MAX : Nat := 20
def DOWNLOAD_RETRIES : Nat := 6

/-! ### Window planner -/

/-- `chunks_8days(d1, d2)` from the script, dates as day numbers: the list of
`(cur, end)` pairs produced by the generator loop
`while cur <= d2: end = min(cur + 7, d2); yield cur, end; cur = end + 1`. -/
def chunks_8days (d1 d2 : Nat) : List (Nat × Nat) :=
  if _h : d1 ≤ d2 then
    (d1, min (d1 + (MAX_DAYS - 1)) d2) ::
      chunks_8days (min (d1 + (MAX_DAYS - 1)) d2 + 1) d2
  else []
termination_by d2 + 1 - d1
decreasing_by simp only [MAX_DAYS]; omega

theorem chunks_8days_mem_bounds :
    ∀ d1 d2, ∀ p ∈ chunks_8days d1 d2,
      d1 ≤ p.1 ∧ p.1 ≤ p.2 ∧ p.2 ≤ d2 ∧ p.2 ≤ p.1 + (MAX_DAYS - 1)
  | d1, d2 => by
    rw [chunks_8days]
    split
    · rename_i h
      intro p hp
      rcases List.mem_cons.1 hp with hp | hp
      · subst hp
        simp only [MAX_DAYS]
        omega
      · have ih := chunks_8days_mem_bounds (min (d1 + (MAX_DAYS - 1)) d2 + 1) d2 p hp
        simp only [MAX_DAYS] at ih ⊢
        omega
    · intro p hp
      simp at hp
termination_by d1 d2 => d2 + 1 - d1
decreasing_by simp only [MAX_DAYS]; omega

theorem chunks_8days_cover :
    ∀ d1 d2 x, d1 ≤ x → x ≤ d2 → ∃ p ∈ chunks_8days d1 d2, p.1 ≤ x ∧ x ≤ p.2
  | d1, d2, x => by
    intro hx1 hx2
    rw [chunks_8days]
    have h : d1 ≤ d2 := le_trans hx1 hx2
    simp only [h, dif_pos]
    by_cases hc : x ≤ min (d1 + (MAX_DAYS - 1)) d2
    · exact ⟨(d1, min (d1 + (MAX_DAYS - 1)) d2), List.mem_cons_self _ _, hx1, hc⟩
    · have ⟨p, hp, hpx⟩ :=
        chunks_8days_cover (min (d1 + (MAX_DAYS - 1)) d2 + 1) d2 x (by omega) hx2
      exact ⟨p, List.mem_cons_of_mem _ hp, hpx⟩
termination_by d1 d2 x => d2 + 1 - d1
decreasing_by simp only [MAX_DAYS]; omega

theorem chunks_8days_chain :
    ∀ d1 d2, List.Chain' (fun p q : Nat × Nat => q.1 = p.2 + 1) (chunks_8days d1 d2)
  | d1, d2 => by
    rw [chunks_8days]
    split
    · rename_i h
      refine List.chain'_cons'.2 ⟨?_, chunks_8days_chain (min (d1 + (MAX_DAYS - 1)) d2 + 1) d2⟩
      intro q hq
      rw [chunks_8days] at hq
      split at hq
      · rw [List.head?_cons] at hq
        cases hq
        rfl
      · simp at hq
    · exact List.chain'_nil
termination_by d1 d2 => d2 + 1 - d1
decreasing_by simp only [MAX_DAYS]; omega

theorem chunks_8days_pairwise :
    ∀ d1 d2, List.Pairwise (fun p q : Nat × Nat => p.2 < q.1) (chunks_8days d1 d2)
  | d1, d2 => by
    rw [chunks_8days]
    split
    · rename_i h
      refine List.pairwise_cons.2
        ⟨?_, chunks_8days_pairwise (min (d1 + (MAX_DAYS - 1)) d2 + 1) d2⟩
      intro q hq
      have := chunks_8days_mem_bounds (min (d1 + (MAX_DAYS - 1)) d2 + 1) d2 q hq
      omega
    · exact List.Pairwise.nil
termination_by d1 d2 => d2 + 1 - d1
decreasing_by simp only [MAX_DAYS]; omega

theorem chunks_8days_single (d : Nat) : chunks_8days d d = [(d, d)] := by
  rw [chunks_8days, chunks_8days]
  simp [MAX_DAYS]

/-- C1: for `start ≤ end`, `chunks_8days` yields closed windows that are each
at most 8 days inclusive, contiguous (each window starts one day after the
previous one ends), pairwise non-overlapping in ascending order, whose union
is exactly `[start, end]`; and `start = end` yields the single window
`(start, start)`. -/
theorem chunks_8days_correct (d1 d2 : Nat) (h : d1 ≤ d2) :
    (∀ p ∈ chunks_8days d1 d2, p.1 ≤ p.2 ∧ p.2 ≤ p.1 + (MAX_DAYS - 1)) ∧
    List.Chain' (fun p q : Nat × Nat => q.1 = p.2 + 1) (chunks_8days d1 d2) ∧
    List.Pairwise (fun p q : Nat × Nat => p.2 < q.1) (chunks_8days d1 d2) ∧
    (∀ x, (d1 ≤ x ∧ x ≤ d2) ↔ ∃ p ∈ chunks_8days d1 d2, p.1 ≤ x ∧ x ≤ p.2) ∧
    (d1 = d2 → chunks_8days d1 d2 = [(d1, d1)]) := by
  refine ⟨?_, chunks_8days_chain d1 d2, chunks_8days_pairwise d1 d2, ?_, ?_⟩
  · intro p hp
    have := chunks_8days_mem_bounds d1 d2 p hp
    exact ⟨this.2.1, this.2.2.2⟩
  · intro x
    constructor
    · intro ⟨hx1, hx2⟩
      exact chunks_8days_cover d1 d2 x hx1 hx2
    · intro ⟨p, hp, hx1, hx2⟩
      have := chunks_8days_mem_bounds d1 d2 p hp
      omega
  · intro he
    subst he
    exact chunks_8days_single d1

/-- Witness for `chunks_8days_correct` at the concrete range of 20 days used
as the spec example (day numbers 0..19, three windows). -/
theorem chunks_8days_correct_witness :
    (0 : Nat) ≤ 19 ∧
    ((∀ p ∈ chunks_8days 0 19, p.1 ≤ p.2 ∧ p.2 ≤ p.1 + (MAX_DAYS - 1)) ∧
     List.Chain' (fun p q : Nat × Nat => q.1 = p.2 + 1) (chunks_8days 0 19) ∧
     List.Pairwise (fun p q : Nat × Nat => p.2 < q.1) (chunks_8days 0 19) ∧
     (∀ x, (0 ≤ x ∧ x ≤ 19) ↔ ∃ p ∈ chunks_8days 0 19, p.1 ≤ x ∧ x ≤ p.2) ∧
     ((0 : Nat) = 19 → chunks_8days 0 19 = [(0, 0)])) :=
  ⟨by decide, chunks_8days_correct 0 19 (by decide)⟩

/-! ### Python value helpers -/

/-- Python truthiness (`bool(v)`): `None`, `False`, `0`, `""`, `[]` and
empty dicts are falsy, everything else truthy. -/
def pyTruthy : JVal → Bool
  | .null => false
  | .bool b => b
  | .num n => n != 0
  | .str s => !s.isEmpty
  | .arr xs => !xs.isEmpty
  | .obj xs => !xs.isEmpty

mutual

/-- Python `repr` of a value (used by `str` on containers): `None`/`True`/
`False`, numbers, `'quoted'` strings, `[a, b]` lists, `{'k': v}` dicts. -/
def pyRepr : JVal → String
  | .null => "None"
  | .bool true => "True"
  | .bool false => "False"
  | .num n => toString n
  | .str s => "'" ++ s ++ "'"
  | .arr xs => "[" ++ String.intercalate ", " (pyReprList xs) ++ "]"
  | .obj xs => "\x7b" ++ String.intercalate ", " (pyReprFields xs) ++ "\x7d"

/-- `repr` of each element of a list. -/
def pyReprList : List JVal → List String
  | [] => []
  | x :: xs => pyRepr x :: pyReprList xs

/-- `repr` of each `key: value` entry of a dict. -/
def pyReprFields : List (String × JVal) → List String
  | [] => []
  | (k, v) :: xs => ("'" ++ k ++ "': " ++ pyRepr v) :: pyReprFields xs

end

/-- Python `str(v)`: the string itself for strings, `repr`-like text
otherwise. -/
def pyStr : JVal → String
  | .str s => s
  | v => pyRepr v

/-- `row.get(k)` on a Python dict (modelled as an association list with the
first binding of a key authoritative): the value when the key is present,
`None` otherwise. -/
def pyGet (d : List (String × JVal)) (k : String) : JVal :=
  match d.find? (fun p => p.1 == k) with
  | some p => p.2
  | none => .null

/-! ### JSON serialization (`json.dumps(..., sort_keys=True, ensure_ascii=False)`) -/

/-- JSON string escaping for `"` , `\` and common control characters;
`ensure_ascii=False` keeps all other characters verbatim. -/
def jsonEscapeChar (c : Char) : String :=
  if c = '"' then "\\\""
  else if c = '\\' then "\\\\"
  else if c = '\n' then "\\n"
  else if c = '\t' then "\\t"
  else if c = '\r' then "\\r"
  else String.singleton c

/-- A JSON string literal. -/
def jsonQuote (s : String) : String :=
  "\"" ++ String.join (s.toList.map jsonEscapeChar) ++ "\""

/-- Insert a rendered `(key, serialized value)` pair into a key-sorted list. -/
def insertByKey (p : String × String) : List (String × String) → List (String × String)
  | [] => [p]
  | q :: qs => if p.1 ≤ q.1 then p :: q :: qs else q :: insertByKey p qs

/-- Sort rendered object fields lexicographically by key (`sort_keys=True`). -/
def sortByKey : List (String × String) → List (String × String)
  | [] => []
  | p :: ps => insertByKey p (sortByKey ps)

mutual

/-- `json.dumps(v, sort_keys=True, ensure_ascii=False)`. -/
def jsonDumps : JVal → String
  | .null => "null"
  | .bool true => "true"
  | .bool false => "false"
  | .num n => toString n
  | .str s => jsonQuote s
  | .arr xs => "[" ++ String.intercalate ", " (jsonDumpsList xs) ++ "]"
  | .obj xs =>
      "\x7b" ++
        String.intercalate ", "
          ((sortByKey (jsonDumpsFields xs)).map (fun p => jsonQuote p.1 ++ ": " ++ p.2)) ++
        "\x7d"

/-- Serialization of each element of an array. -/
def jsonDumpsList : List JVal → List String
  | [] => []
  | x :: xs => jsonDumps x :: jsonDumpsList xs

/-- Serialization of each field value of an object, keeping the key. -/
def jsonDumpsFields : List (String × JVal) → List (String × String)
  | [] => []
  | (k, v) :: xs => (k, jsonDumps v) :: jsonDumpsFields xs

end

/-! ### Row normalizer -/

/-- Python string slicing `s[:n]`: the first `n` code points of `s`. -/
def pySlice (s : String) (n : Nat) : String := ⟨s.data.take n⟩

/-- `norm_date` (source line 60-61): `None if not v else str(v)[:10]`. -/
def norm_date (v : JVal) : JVal :=
  if pyTruthy v then .str (pySlice (pyStr v) 10) else .null

/-- The `out` dict built by `normalize_row` (source lines 64-88), before the
`_hash` field is added, in the source's insertion order. -/
def normalize_row_fields (row : List (String × JVal)) : List (String × JVal) :=
  [("date",               norm_date (pyGet row "date")),
   ("log_warehouse_coef", pyGet row "logWarehouseCoef"),
   ("office_id",          pyGet row "officeId"),
   ("warehouse",          pyGet row "warehouse"),
   ("warehouse_coef",     pyGet row "warehouseCoef"),
   ("gi_id",              pyGet row "giId"),
   ("chrt_id",            pyGet row "chrtId"),
   ("size",               pyGet row "size"),
   ("barcode",            pyGet row "barcode"),
   ("subject",            pyGet row "subject"),
   ("brand",              pyGet row "brand"),
   ("vendor_code",        pyGet row "vendorCode"),
   ("nm_id",              pyGet row "nmId"),
   ("volume",             pyGet row "volume"),
   ("calc_type",          pyGet row "calcType"),
   ("warehouse_price",    pyGet row "warehousePrice"),
   ("barcodes_count",     pyGet row "barcodesCount"),
   ("pallet_place_code",  pyGet row "palletPlaceCode"),
   ("pallet_count",       pyGet row "palletCount"),
   ("original_date",      norm_date (pyGet row "originalDate")),
   ("loyalty_discount",   pyGet row "loyaltyDiscount"),
   ("tariff_fix_date",    norm_date (pyGet row "tariffFixDate")),
   ("tariff_lower_date",  pyGet row "tariffLowerDate")]

/-- The external field names `normalize_row` reads from the raw row. -/
def wbRawKeys : List String :=
  ["date", "logWarehouseCoef", "officeId", "warehouse", "warehouseCoef",
   "giId", "chrtId", "size", "barcode", "subject", "brand", "vendorCode",
   "nmId", "volume", "calcType", "warehousePrice", "barcodesCount",
   "palletPlaceCode", "palletCount", "originalDate", "loyaltyDiscount",
   "tariffFixDate", "tariffLowerDate"]

/-- `normalize_row` (source lines 63-92): the mapped fields plus a `_hash`
field computed over `json.dumps(out, sort_keys=True, ensure_ascii=False)`
of the mapped fields.  The SHA-256 hex digest applied to that canonical
serialization is abstracted as the function parameter `h`. -/
def normalize_row (h : String → String) (row : List (String × JVal)) :
    List (String × JVal) :=
  normalize_row_fields row ++
    [("_hash", .str (h (jsonDumps (.obj (normalize_row_fields row)))))]

theorem normalize_row_fields_ext (r1 r2 : List (String × JVal))
    (hk : ∀ k ∈ wbRawKeys, pyGet r1 k = pyGet r2 k) :
    normalize_row_fields r1 = normalize_row_fields r2 := by
  simp only [normalize_row_fields,
    hk "date" (by decide), hk "logWarehouseCoef" (by decide),
    hk "officeId" (by decide), hk "warehouse" (by decide),
    hk "warehouseCoef" (by decide), hk "giId" (by decide),
    hk "chrtId" (by decide), hk "size" (by decide),
    hk "barcode" (by decide), hk "subject" (by decide),
    hk "brand" (by decide), hk "vendorCode" (by decide),
    hk "nmId" (by decide), hk "volume" (by decide),
    hk "calcType" (by decide), hk "warehousePrice" (by decide),
    hk "barcodesCount" (by decide), hk "palletPlaceCode" (by decide),
    hk "palletCount" (by decide), hk "originalDate" (by decide),
    hk "loyaltyDiscount" (by decide), hk "tariffFixDate" (by decide),
    hk "tariffLowerDate" (by decide)]

/-- C7: `normalize_row` is deterministic (same input, same record and same
fingerprint), and the canonical record — `_hash` included — depends only on
the raw row's values under the mapped external field names, so two raw rows
agreeing on those values (e.g. built in different key insertion orders)
yield the same `_hash`.  `h` abstracts the SHA-256 hex digest. -/
theorem normalize_row_deterministic_content (h : String → String)
    (r1 r2 : List (String × JVal))
    (hk : ∀ k ∈ wbRawKeys, pyGet r1 k = pyGet r2 k) :
    normalize_row h r1 = normalize_row h r1 ∧
    normalize_row h r1 = normalize_row h r2 ∧
    pyGet (normalize_row h r1) "_hash" = pyGet (normalize_row h r2) "_hash" := by
  have e := normalize_row_fields_ext r1 r2 hk
  exact ⟨rfl, by simp [normalize_row, e], by simp [normalize_row, e]⟩

/-- Witness for `normalize_row_deterministic_content`: two concrete raw rows
with the same field values in opposite insertion orders. -/
theorem normalize_row_deterministic_content_witness :
    (∀ k ∈ wbRawKeys,
        pyGet [("nmId", JVal.num 5), ("date", JVal.str "2024-01-02T00:00:00")] k =
        pyGet [("date", JVal.str "2024-01-02T00:00:00"), ("nmId", JVal.num 5)] k) ∧
    normalize_row id [("nmId", JVal.num 5), ("date", JVal.str "2024-01-02T00:00:00")] =
      normalize_row id [("date", JVal.str "2024-01-02T00:00:00"), ("nmId", JVal.num 5)] :=
  ⟨by decide,
   (normalize_row_deterministic_content id
      [("nmId", JVal.num 5), ("date", JVal.str "2024-01-02T00:00:00")]
      [("date", JVal.str "2024-01-02T00:00:00"), ("nmId", JVal.num 5)]
      (by decide)).2.1⟩

/-- C9 counterexample: `tariffLowerDate` is a date-like raw field, yet
`normalize_row` copies it unmodified — a 19-character timestamp stays 19
characters in the canonical record — and an empty-string raw value of a
pass-through field (`warehouse`) is kept as `""` rather than becoming
absent. -/
theorem normalize_row_dates_counterexample :
    pyGet (normalize_row_fields
        [("tariffLowerDate", JVal.str "2024-01-02T00:00:00"),
         ("warehouse", JVal.str "")]) "tariff_lower_date"
      = JVal.str "2024-01-02T00:00:00" ∧
    ("2024-01-02T00:00:00" : String).length = 19 ∧
    pyGet (normalize_row_fields
        [("tariffLowerDate", JVal.str "2024-01-02T00:00:00"),
         ("warehouse", JVal.str "")]) "warehouse" = JVal.str "" := by
  decide

set_option maxRecDepth 8192 in
/-- C9 amended: the raw fields `date`, `originalDate` and `tariffFixDate`
go through `norm_date` — truncated to at most 10 characters when truthy,
mapped to absent (`None`) when null or empty — while `tariffLowerDate` and
every other mapped field are copied unchanged, so an empty-string raw value
of a pass-through field stays an empty string. -/
theorem normalize_row_dates (row : List (String × JVal)) (v w : JVal)
    (hv : pyTruthy v = true) (hw : pyTruthy w = false) :
    pyGet (normalize_row_fields row) "date" = norm_date (pyGet row "date") ∧
    pyGet (normalize_row_fields row) "original_date" =
      norm_date (pyGet row "originalDate") ∧
    pyGet (normalize_row_fields row) "tariff_fix_date" =
      norm_date (pyGet row "tariffFixDate") ∧
    pyGet (normalize_row_fields row) "tariff_lower_date" =
      pyGet row "tariffLowerDate" ∧
    norm_date v = .str (pySlice (pyStr v) 10) ∧
    (pySlice (pyStr v) 10).length ≤ 10 ∧
    norm_date w = .null := by
  refine ⟨rfl, rfl, rfl, rfl, ?_, ?_, ?_⟩
  · simp [norm_date, hv]
  · show ((pyStr v).data.take 10).length ≤ 10
    simp
  · simp [norm_date, hw]

/-- Witness for `normalize_row_dates` at a concrete raw row, a truthy
timestamp value and the falsy empty string. -/
theorem normalize_row_dates_witness :
    pyTruthy (JVal.str "2024-03-05T00:00:00") = true ∧
    pyTruthy (JVal.str "") = false ∧
    (pyGet (normalize_row_fields [("date", JVal.str "2024-03-05T00:00:00")]) "date" =
       norm_date (pyGet [("date", JVal.str "2024-03-05T00:00:00")] "date") ∧
     pyGet (normalize_row_fields [("date", JVal.str "2024-03-05T00:00:00")]) "original_date" =
       norm_date (pyGet [("date", JVal.str "2024-03-05T00:00:00")] "originalDate") ∧
     pyGet (normalize_row_fields [("date", JVal.str "2024-03-05T00:00:00")]) "tariff_fix_date" =
       norm_date (pyGet [("date", JVal.str "2024-03-05T00:00:00")] "tariffFixDate") ∧
     pyGet (normalize_row_fields [("date", JVal.str "2024-03-05T00:00:00")]) "tariff_lower_date" =
       pyGet [("date", JVal.str "2024-03-05T00:00:00")] "tariffLowerDate" ∧
     norm_date (JVal.str "2024-03-05T00:00:00") =
       .str (pySlice (pyStr (JVal.str "2024-03-05T00:00:00")) 10) ∧
     (pySlice (pyStr (JVal.str "2024-03-05T00:00:00")) 10).length ≤ 10 ∧
     norm_date (JVal.str "") = .null) :=
  ⟨by decide, by decide,
   normalize_row_dates [("date", JVal.str "2024-03-05T00:00:00")]
     (JVal.str "2024-03-05T00:00:00") (JVal.str "") (by decide) (by decide)⟩

/-! ### Rate-aware HTTP client (`http_get`, source lines 41-58) -/

/-- One HTTP response from the remote side: status code, and the parsed JSON
value when the body parses (`none` models a non-JSON body). -/
structure Resp where
  code : Nat
  body : Option JVal

/-- The status codes `http_get` retries: `429` or any `5xx`
(`r.status_code in (429,) or 500 <= r.status_code < 600`, source line 47). -/
def httpRetriable (c : Nat) : Bool := c == 429 || (500 ≤ c && c < 600)

/-- Outcome of `http_get`: returned JSON, or the exception that escaped —
`authError` is `raise_for_status` on a 401, `httpError` is
`raise_for_status` on another 4xx/5xx, `nonJson` is the `RuntimeError` for
an unparseable body, `exhausted` is the final
`RuntimeError("WB request failed after retries")`. -/
inductive HttpOutcome where
  | ok (v : JVal)
  | authError
  | httpError (c : Nat)
  | nonJson (c : Nat)
  | exhausted
deriving DecidableEq

/-- A finished run of a retrying request loop: its result, the `time.sleep`
durations performed (in order, in seconds), and how many HTTP requests were
issued. -/
structure HttpRun where
  result : HttpOutcome
  sleeps : List ℚ
  requests : Nat
deriving DecidableEq

/-- The retry loop of `http_get` (source lines 42-58) from a given 0-based
attempt (the source counts `attempt in range(1, 7)`) and current base delay.
`resps i` is the remote response to the `i`-th request of this loop and
`jitter i` models the `random.uniform(0, 1.0)` drawn before the `i`-th
sleep. -/
def http_get_from (resps : Nat → Resp) (jitter : Nat → ℚ) (attempt : Nat)
    (delay : ℚ) : HttpRun :=
  if _h : attempt < 6 then
    let r := resps attempt
    if r.code = 401 then ⟨.authError, [], 1⟩
    else if httpRetriable r.code then
      let rest := http_get_from resps jitter (attempt + 1) (min (delay * 2) 30)
      ⟨rest.result, (delay + jitter attempt) :: rest.sleeps, rest.requests + 1⟩
    else if 400 ≤ r.code ∧ r.code < 600 then ⟨.httpError r.code, [], 1⟩
    else
      match r.body with
      | some v => ⟨.ok v, [], 1⟩
      | none => ⟨.nonJson r.code, [], 1⟩
  else ⟨.exhausted, [], 0⟩
termination_by 6 - attempt

/-- `http_get`: the full loop, starting at attempt 0 with `delay = 2`. -/
def http_get (resps : Nat → Resp) (jitter : Nat → ℚ) : HttpRun :=
  http_get_from resps jitter 0 2

/-- The base delay before the `i`-th sleep of `http_get`: starts at 2,
doubles, capped at 30 (`delay = min(delay*2, 30)`, source line 51). -/
def baseDelay : Nat → ℚ
  | 0 => 2
  | i + 1 => min (baseDelay i * 2) 30

/-- Iterating `delay = min(delay*2, 30)` from an arbitrary start. -/
def delayIter (delay : ℚ) : Nat → ℚ
  | 0 => delay
  | i + 1 => min (delayIter delay i * 2) 30

theorem delayIter_shift (delay : ℚ) (i : Nat) :
    delayIter delay (i + 1) = delayIter (min (delay * 2) 30) i := by
  induction i with
  | zero => rfl
  | succ n ih => rw [delayIter, ih, delayIter]

theorem baseDelay_eq_delayIter (i : Nat) : baseDelay i = delayIter 2 i := by
  induction i with
  | zero => rfl
  | succ n ih => rw [baseDelay, ih, delayIter]

theorem httpRetriable_ne_401 {c : Nat} (h : httpRetriable c = true) : c ≠ 401 := by
  simp only [httpRetriable, Bool.or_eq_true, beq_iff_eq, Bool.and_eq_true,
    decide_eq_true_eq] at h
  omega

theorem http_get_from_retriable_prefix (resps : Nat → Resp) (jitter : Nat → ℚ) :
    ∀ n attempt delay, attempt + n ≤ 6 →
      (∀ i, i < n → httpRetriable (resps (attempt + i)).code = true) →
      http_get_from resps jitter attempt delay =
        ⟨(http_get_from resps jitter (attempt + n) (delayIter delay n)).result,
         (List.range n).map (fun i => delayIter delay i + jitter (attempt + i)) ++
           (http_get_from resps jitter (attempt + n) (delayIter delay n)).sleeps,
         n + (http_get_from resps jitter (attempt + n) (delayIter delay n)).requests⟩ := by
  intro n
  induction n with
  | zero =>
    intro attempt delay _ _
    simp [delayIter]
  | succ m ih =>
    intro attempt delay hle hpre
    have hret : httpRetriable (resps attempt).code = true := by
      have := hpre 0 (Nat.succ_pos m)
      simpa using this
    have h401 : (resps attempt).code ≠ 401 := httpRetriable_ne_401 hret
    rw [http_get_from]
    simp only [show attempt < 6 by omega, dif_pos, h401, if_neg, hret, if_pos,
      if_false, ite_false]
    have ihx := ih (attempt + 1) (min (delay * 2) 30) (by omega)
      (fun i hi => by
        have := hpre (i + 1) (by omega)
        simpa [Nat.add_assoc, Nat.add_comm 1 i] using this)
    rw [ihx]
    have harr : attempt + 1 + m = attempt + (m + 1) := by omega
    have hdel : delayIter (min (delay * 2) 30) m = delayIter delay (m + 1) :=
      (delayIter_shift delay m).symm
    dsimp only
    rw [harr, hdel]
    have key : (List.range (m + 1)).map
        (fun i => delayIter delay i + jitter (attempt + i)) =
        (delay + jitter attempt) ::
          (List.range m).map
            (fun i => delayIter (min (delay * 2) 30) i + jitter (attempt + 1 + i)) := by
      rw [List.range_succ_eq_map, List.map_cons, List.map_map]
      refine congrArg₂ List.cons (by simp [delayIter]) ?_
      refine List.map_congr_left (fun a _ => ?_)
      simp only [Function.comp_apply, Nat.succ_eq_add_one]
      rw [delayIter_shift delay a, show attempt + (a + 1) = attempt + 1 + a from by omega]
    rw [key, List.cons_append]
    congr 1
    omega

theorem http_get_from_stop (resps : Nat → Resp) (jitter : Nat → ℚ)
    (attempt : Nat) (delay : ℚ) (h : ¬ attempt < 6) :
    http_get_from resps jitter attempt delay = ⟨.exhausted, [], 0⟩ := by
  rw [http_get_from]
  simp [h]

theorem http_get_from_401 (resps : Nat → Resp) (jitter : Nat → ℚ)
    (attempt : Nat) (delay : ℚ) (h6 : attempt < 6)
    (h : (resps attempt).code = 401) :
    http_get_from resps jitter attempt delay = ⟨.authError, [], 1⟩ := by
  rw [http_get_from]
  simp [h6, h]

theorem http_get_from_ok (resps : Nat → Resp) (jitter : Nat → ℚ)
    (attempt : Nat) (delay : ℚ) (v : JVal) (h6 : attempt < 6)
    (h401 : (resps attempt).code ≠ 401)
    (hret : httpRetriable (resps attempt).code = false)
    (herr : ¬ (400 ≤ (resps attempt).code ∧ (resps attempt).code < 600))
    (hbody : (resps attempt).body = some v) :
    http_get_from resps jitter attempt delay = ⟨.ok v, [], 1⟩ := by
  rw [http_get_from]
  simp [h6, h401, hret, herr, hbody]

theorem baseDelay_values (i : Nat) :
    baseDelay i = 2 ∨ baseDelay i = 4 ∨ baseDelay i = 8 ∨
      baseDelay i = 16 ∨ baseDelay i = 30 := by
  induction i with
  | zero => left; rfl
  | succ n ih =>
    have e : baseDelay (n + 1) = min (baseDelay n * 2) 30 := rfl
    rcases ih with h | h | h | h | h <;> rw [e, h] <;> norm_num [min_def]

theorem baseDelay_succ_ge (i : Nat) (h : baseDelay i < 30) :
    baseDelay i + 2 ≤ baseDelay (i + 1) := by
  have e : baseDelay (i + 1) = min (baseDelay i * 2) 30 := rfl
  rcases baseDelay_values i with hv | hv | hv | hv | hv <;> rw [e, hv]
  · norm_num [min_def]
  · norm_num [min_def]
  · norm_num [min_def]
  · norm_num [min_def]
  · rw [hv] at h; norm_num at h

theorem http_get_from_retry (resps : Nat → Resp) (jitter : Nat → ℚ)
    (attempt : Nat) (delay : ℚ) (h6 : attempt < 6)
    (h401 : (resps attempt).code ≠ 401)
    (hret : httpRetriable (resps attempt).code = true) :
    http_get_from resps jitter attempt delay =
      ⟨(http_get_from resps jitter (attempt + 1) (min (delay * 2) 30)).result,
       (delay + jitter attempt) ::
         (http_get_from resps jitter (attempt + 1) (min (delay * 2) 30)).sleeps,
       (http_get_from resps jitter (attempt + 1) (min (delay * 2) 30)).requests + 1⟩ := by
  rw [http_get_from]
  simp [h6, h401, hret]

theorem http_get_from_httpError (resps : Nat → Resp) (jitter : Nat → ℚ)
    (attempt : Nat) (delay : ℚ) (h6 : attempt < 6)
    (h401 : (resps attempt).code ≠ 401)
    (hret : httpRetriable (resps attempt).code = false)
    (herr : 400 ≤ (resps attempt).code ∧ (resps attempt).code < 600) :
    http_get_from resps jitter attempt delay =
      ⟨.httpError (resps attempt).code, [], 1⟩ := by
  rw [http_get_from]
  simp [h6, h401, hret, herr]

theorem http_get_from_nonJson (resps : Nat → Resp) (jitter : Nat → ℚ)
    (attempt : Nat) (delay : ℚ) (h6 : attempt < 6)
    (h401 : (resps attempt).code ≠ 401)
    (hret : httpRetriable (resps attempt).code = false)
    (herr : ¬ (400 ≤ (resps attempt).code ∧ (resps attempt).code < 600))
    (hbody : (resps attempt).body = none) :
    http_get_from resps jitter attempt delay =
      ⟨.nonJson (resps attempt).code, [], 1⟩ := by
  rw [http_get_from]
  simp [h6, h401, hret, herr, hbody]

theorem http_get_from_requests_le (resps : Nat → Resp) (jitter : Nat → ℚ) :
    ∀ attempt delay, (http_get_from resps jitter attempt delay).requests ≤ 6 - attempt
  | attempt, delay => by
    by_cases h6 : attempt < 6
    · by_cases h401 : (resps attempt).code = 401
      · rw [http_get_from_401 resps jitter attempt delay h6 h401]
        show 1 ≤ 6 - attempt
        omega
      · by_cases hret : httpRetriable (resps attempt).code = true
        · rw [http_get_from_retry resps jitter attempt delay h6 h401 hret]
          show (http_get_from resps jitter (attempt + 1) (min (delay * 2) 30)).requests + 1 ≤
            6 - attempt
          have ih := http_get_from_requests_le resps jitter (attempt + 1) (min (delay * 2) 30)
          omega
        · have hret' : httpRetriable (resps attempt).code = false := by
            simpa using hret
          by_cases herr : 400 ≤ (resps attempt).code ∧ (resps attempt).code < 600
          · rw [http_get_from_httpError resps jitter attempt delay h6 h401 hret' herr]
            show 1 ≤ 6 - attempt
            omega
          · cases hbody : (resps attempt).body with
            | some v =>
              rw [http_get_from_ok resps jitter attempt delay v h6 h401 hret' herr hbody]
              show 1 ≤ 6 - attempt
              omega
            | none =>
              rw [http_get_from_nonJson resps jitter attempt delay h6 h401 hret' herr hbody]
              show 1 ≤ 6 - attempt
              omega
    · rw [http_get_from_stop resps jitter attempt delay h6]
      show 0 ≤ 6 - attempt
      omega
termination_by attempt delay => 6 - attempt

/-- C2: `http_get` makes at most 6 request attempts; each 429/5xx response
triggers a sleep of the current base delay plus the drawn jitter, the base
delay starting at 2 seconds and doubling up to the 30-second cap; while the
base delay is below the cap, consecutive sleep durations strictly increase
for any jitters in `[0, 1)`; `N ≤ 5` consecutive 429s followed by a `200`
with a JSON body return the parsed JSON after exactly `N+1` requests and `N`
backoff sleeps; and 6 consecutive 429/5xx responses exhaust the budget and
surface the retriable-exhausted failure. -/
theorem http_get_retry_policy :
    (∀ resps jitter, (http_get resps jitter).requests ≤ 6) ∧
    (∀ jitter : Nat → ℚ, (∀ i, 0 ≤ jitter i ∧ jitter i < 1) →
      ∀ i, baseDelay i < 30 →
        baseDelay i + jitter i < baseDelay (i + 1) + jitter (i + 1)) ∧
    (∀ resps jitter (v : JVal) N, N ≤ 5 →
      (∀ i, i < N → (resps i).code = 429) → resps N = ⟨200, some v⟩ →
      http_get resps jitter =
        ⟨.ok v, (List.range N).map (fun i => baseDelay i + jitter i), N + 1⟩) ∧
    (∀ resps jitter, (∀ i, i < 6 → httpRetriable (resps i).code = true) →
      http_get resps jitter =
        ⟨.exhausted, (List.range 6).map (fun i => baseDelay i + jitter i), 6⟩) := by
  refine ⟨?_, ?_, ?_, ?_⟩
  · intro resps jitter
    have := http_get_from_requests_le resps jitter 0 2
    simpa [http_get] using this
  · intro jitter hj i hi
    have h1 := baseDelay_succ_ge i hi
    have h2 := (hj i).2
    have h3 := (hj (i + 1)).1
    linarith
  · intro resps jitter v N hN hpre hok
    have hcov := http_get_from_retriable_prefix resps jitter N 0 2 (by omega)
      (fun i hi => by
        have := hpre i hi
        simp only [Nat.zero_add]
        simp [httpRetriable, this])
    have hstep : http_get_from resps jitter (0 + N) (delayIter 2 N) = ⟨.ok v, [], 1⟩ := by
      rw [Nat.zero_add]
      refine http_get_from_ok resps jitter N (delayIter 2 N) v (by omega) ?_ ?_ ?_ ?_
      · rw [hok]; simp
      · rw [hok]; rfl
      · rw [hok]; simp
      · rw [hok]
    rw [http_get, hcov, hstep]
    refine congrArg₂ (fun l n => HttpRun.mk _ l n) ?_ rfl
    simp only [List.append_nil]
    refine List.map_congr_left (fun i _ => ?_)
    rw [baseDelay_eq_delayIter, Nat.zero_add]
  · intro resps jitter hpre
    have hcov := http_get_from_retriable_prefix resps jitter 6 0 2 (by omega)
      (fun i hi => by
        have := hpre i hi
        simpa using this)
    have hstep : http_get_from resps jitter (0 + 6) (delayIter 2 6) =
        ⟨.exhausted, [], 0⟩ :=
      http_get_from_stop resps jitter (0 + 6) (delayIter 2 6) (by omega)
    rw [http_get, hcov, hstep]
    refine congrArg₂ (fun l n => HttpRun.mk _ l n) ?_ rfl
    simp only [List.append_nil]
    refine List.map_congr_left (fun i _ => ?_)
    rw [baseDelay_eq_delayIter, Nat.zero_add]

/-- Witness for `http_get_retry_policy`: constant jitter 1/2, two 429s then
a `200` for the success scenario, constant 503s for the exhaustion
scenario. -/
theorem http_get_retry_policy_witness :
    (http_get (fun _ => ⟨503, none⟩) (fun _ => (1 : ℚ)/2)).requests ≤ 6 ∧
    (baseDelay 0 < 30 ∧ baseDelay 0 + (1 : ℚ)/2 < baseDelay (0 + 1) + (1 : ℚ)/2) ∧
    ((2 : Nat) ≤ 5 ∧
      http_get (fun i => if i < 2 then ⟨429, none⟩ else ⟨200, some (.num 7)⟩)
          (fun _ => (1 : ℚ)/2) =
        ⟨.ok (.num 7), (List.range 2).map (fun i => baseDelay i + (1 : ℚ)/2), 2 + 1⟩) ∧
    http_get (fun _ => ⟨503, none⟩) (fun _ => (1 : ℚ)/2) =
      ⟨.exhausted, (List.range 6).map (fun i => baseDelay i + (1 : ℚ)/2), 6⟩ :=
  ⟨http_get_retry_policy.1 _ _,
   ⟨by norm_num [baseDelay],
    http_get_retry_policy.2.1 (fun _ => (1 : ℚ)/2) (fun i => by norm_num) 0
      (by norm_num [baseDelay])⟩,
   ⟨by norm_num,
    http_get_retry_policy.2.2.1 _ (fun _ => (1 : ℚ)/2) (.num 7) 2 (by norm_num)
      (fun i hi => by interval_cases i <;> rfl) rfl⟩,
   http_get_retry_policy.2.2.2 _ (fun _ => (1 : ℚ)/2) (fun i _ => rfl)⟩

/-! ### Payload shape probing (`extract_rows`, source lines 112-126) -/

/-- The wrapper-key probe of `extract_rows` (source lines 120-122): the
first key in order whose value is a list wins. -/
def probeKeys (vf : List (String × JVal)) : List String → Option (List JVal)
  | [] => none
  | k :: ks =>
    match vf.find? (fun p => p.1 == k) with
    | some (_, .arr xs) => some xs
    | _ => probeKeys vf ks

/-- `extract_rows` (source lines 112-126): a bare list is returned as-is;
for a dict, `v = payload.get("data", payload)`; a list `v` is returned, a
dict `v` is probed for the wrapper keys `rows`/`items`/`elements`/`list`/
`result` (the `taskId` check and the final fall-through both return `[]`);
everything else yields `[]`. -/
def extract_rows (payload : JVal) : List JVal :=
  match payload with
  | .arr xs => xs
  | .obj fields =>
    match (match fields.find? (fun p => p.1 == "data") with
           | some p => p.2
           | none => .obj fields) with
    | .arr xs => xs
    | .obj vf =>
      match probeKeys vf ["rows", "items", "elements", "list", "result"] with
      | some xs => xs
      | none => []
    | _ => []
  | _ => []

/-! ### Task status polling (`poll_status`, source lines 129-153) -/

/-- Python exceptions that can escape the protocol functions. -/
inductive PyErr where
  | authError
  | httpError (c : Nat)
  | jsonError
  | attrError
  | runtimeError (msg : String)
deriving DecidableEq

/-- The status extraction
`js.get("data", {}).get("status") or js.get("status")` (source line 144),
including the `AttributeError` raised when `js` or `js["data"]` is not a
dict.  `none` models Python `None` (key absent); a falsy inner status falls
back to the outer `status` key, as Python `or` does. -/
def poll_status_of_json (js : JVal) : Except PyErr (Option JVal) :=
  match js with
  | .obj fields =>
    match (match fields.find? (fun p => p.1 == "data") with
           | some p => p.2
           | none => .obj []) with
    | .obj dfields =>
      match (dfields.find? (fun p => p.1 == "status")).map Prod.snd with
      | some v =>
        if pyTruthy v then .ok (some v)
        else .ok ((fields.find? (fun p => p.1 == "status")).map Prod.snd)
      | none => .ok ((fields.find? (fun p => p.1 == "status")).map Prod.snd)
    | _ => .error .attrError
  | _ => .error .attrError

/-- `status in ("done", "error", "failed")` (source line 145). -/
def isTerminalStatus (status : Option JVal) : Bool :=
  status == some (.str "done") || status == some (.str "error") ||
    status == some (.str "failed")

/-- `return status or "unknown"` (source line 146): the status string when
truthy, `"unknown"` otherwise (at this point the status is always one of
the nonempty strings `done`/`error`/`failed`, so `"unknown"` is
unreachable). -/
def statusString (status : Option JVal) : String :=
  match status with
  | some (.str s) => if s.isEmpty then "unknown" else s
  | _ => "unknown"

/-- A finished run of `poll_status`: the returned status string or the
raised exception, the sleeps performed (seconds) and the number of status
requests issued. -/
structure PollRun where
  result : Except PyErr String
  sleeps : List Nat
  requests : Nat

/-- The `while waited < STATUS_MAX_WAIT` loop of `poll_status` (source
lines 133-153) from request index `i`, elapsed time `waited` and current
poll step.  `maxWait` models the configurable `STATUS_MAX_WAIT` (default
900).  Retriable responses (429/5xx) and non-terminal statuses both sleep
`step` seconds, add it to `waited` and grow the step by 2 up to
`STATUS_POLL_STEP_MAX`; a 401 or another 4xx raises via
`raise_for_status`; an unparseable body raises `ValueError`; a non-dict
JSON shape raises `AttributeError` in the status extraction. -/
def poll_status_from (resps : Nat → Resp) (maxWait : Nat)
    (i waited step : Nat) : PollRun :=
  if _h : waited < maxWait then
    let r := resps i
    if r.code = 401 then ⟨.error .authError, [], 1⟩
    else if httpRetriable r.code then
      let rest := poll_status_from resps maxWait (i + 1) (waited + step)
        (min (step + 2) STATUS_POLL_STEP_MAX)
      ⟨rest.result, step :: rest.sleeps, rest.requests + 1⟩
    else if 400 ≤ r.code ∧ r.code < 600 then ⟨.error (.httpError r.code), [], 1⟩
    else
      match r.body with
      | none => ⟨.error .jsonError, [], 1⟩
      | some js =>
        match poll_status_of_json js with
        | .error e => ⟨.error e, [], 1⟩
        | .ok status =>
          if isTerminalStatus status then ⟨.ok (statusString status), [], 1⟩
          else
            let rest := poll_status_from resps maxWait (i + 1) (waited + step)
              (min (step + 2) STATUS_POLL_STEP_MAX)
            ⟨rest.result, step :: rest.sleeps, rest.requests + 1⟩
  else ⟨.ok "timeout", [], 0⟩
termination_by (maxWait - waited) * 2 + 1 - min step 1
decreasing_by
  all_goals simp only [STATUS_POLL_STEP_MAX]; omega

/-- `poll_status`: the full loop, `waited = 0`, `step = 5`. -/
def poll_status (resps : Nat → Resp) (maxWait : Nat) : PollRun :=
  poll_status_from resps maxWait 0 0 STATUS_POLL_STEP_MIN

/-! ### Report download (`download_report`, source lines 155-176) -/

/-- A finished run of `download_report`: the returned row list or the
raised exception, the sleeps performed (seconds) and the number of download
requests issued. -/
structure DownloadRun where
  result : Except PyErr (List JVal)
  sleeps : List Nat
  requests : Nat

/-- The `for attempt in range(1, DOWNLOAD_RETRIES+1)` loop of
`download_report` (source lines 155-176), 0-based attempt, cooldown `delay`
starting at 65 and growing by 15 up to 120 on each 429.  A 401 or another
4xx/5xx raises via `raise_for_status`; an unparseable body raises
`ValueError`.  Since `extract_rows` always returns a list, the
`isinstance(data, list)` check succeeds and the shape-mismatch retry branch
(source lines 172-175) is unreachable, so the first response that is
neither a 429 nor an error status returns. -/
def download_report_from (resps : Nat → Resp) (attempt delay : Nat) : DownloadRun :=
  if h : attempt < DOWNLOAD_RETRIES then
    let r := resps attempt
    if r.code = 401 then ⟨.error .authError, [], 1⟩
    else if r.code = 429 then
      let rest := download_report_from resps (attempt + 1) (min (delay + 15) 120)
      ⟨rest.result, delay :: rest.sleeps, rest.requests + 1⟩
    else if 400 ≤ r.code ∧ r.code < 600 then ⟨.error (.httpError r.code), [], 1⟩
    else
      match r.body with
      | none => ⟨.error .jsonError, [], 1⟩
      | some payload => ⟨.ok (extract_rows payload), [], 1⟩
  else ⟨.error (.runtimeError "WB download failed after retries"), [], 0⟩
termination_by DOWNLOAD_RETRIES - attempt
decreasing_by simp only [DOWNLOAD_RETRIES] at h ⊢; omega

/-- `download_report`: the full loop, starting with `delay = 65`. -/
def download_report (resps : Nat → Resp) : DownloadRun :=
  download_report_from resps 0 65

/-! ### One window (`fetch_window`, source lines 179-211) -/

/-- The `taskId` extraction of `fetch_window` (source lines 187-191):
`v = payload.get("data", payload)`; when `v` is a dict, `v.get("taskId")`. -/
def fetch_window_task_id (payload : JVal) : Option JVal :=
  match payload with
  | .obj fields =>
    match (match fields.find? (fun p => p.1 == "data") with
           | some p => p.2
           | none => .obj fields) with
    | .obj vf => (vf.find? (fun p => p.1 == "taskId")).map Prod.snd
    | _ => none
  | _ => none

/-- `[normalize_row(r) for r in data]` (source line 209): each row must be
a dict, otherwise `row.get` raises `AttributeError`. -/
def normalize_rows (h : String → String) :
    List JVal → Except PyErr (List (List (String × JVal)))
  | [] => .ok []
  | .obj fields :: rest =>
    match normalize_rows h rest with
    | .ok rs => .ok (normalize_row h fields :: rs)
    | .error e => .error e
  | _ :: _ => .error .attrError

/-- Outcome of `fetch_window`: `wrote rows` means the run reached
`upsert(rows)` with the normalized rows; `deferred s` is the soft `return`
for a task that is not ready (source lines 200-202), with the status
sentinel `s`; `error` is a raised exception. -/
inductive FetchOutcome where
  | wrote (rows : List (List (String × JVal)))
  | deferred (status : String)
  | error (e : PyErr)
deriving DecidableEq

/-- `fetch_window` (source lines 179-211), composed of `http_get` for the
initial request (responses `getResps`, jitters `jitter`), `poll_status`
(responses `pollResps`, wait budget `maxWait`), `download_report`
(responses `dlResps`) and `normalize_row` (hash `h`).  The
`isinstance(data, list)` guard on line 204 never fires because
`extract_rows` and `download_report` always produce lists. -/
def fetch_window (h : String → String) (getResps : Nat → Resp) (jitter : Nat → ℚ)
    (pollResps : Nat → Resp) (maxWait : Nat) (dlResps : Nat → Resp) :
    FetchOutcome :=
  match (http_get getResps jitter).result with
  | .authError => .error .authError
  | .httpError c => .error (.httpError c)
  | .nonJson c => .error (.runtimeError "WB returned non-JSON")
  | .exhausted => .error (.runtimeError "WB request failed after retries")
  | .ok payload =>
    let data := extract_rows payload
    let taskTruthy := match fetch_window_task_id payload with
                      | some t => pyTruthy t
                      | none => false
    if data.isEmpty && taskTruthy then
      match (poll_status pollResps maxWait).result with
      | .error e => .error e
      | .ok status =>
        if status = "done" then
          match (download_report dlResps).result with
          | .error e => .error e
          | .ok rows =>
            match normalize_rows h rows with
            | .ok nrows => .wrote nrows
            | .error e => .error e
        else if status = "error" ∨ status = "failed" then
          .error (.runtimeError "Task failed")
        else .deferred status
    else
      match normalize_rows h data with
      | .ok nrows => .wrote nrows
      | .error e => .error e

theorem poll_status_from_stop (resps : Nat → Resp) (maxWait i waited step : Nat)
    (h : ¬ waited < maxWait) :
    poll_status_from resps maxWait i waited step = ⟨.ok "timeout", [], 0⟩ := by
  rw [poll_status_from]
  simp [h]

theorem poll_status_from_401 (resps : Nat → Resp) (maxWait i waited step : Nat)
    (h : waited < maxWait) (hc : (resps i).code = 401) :
    poll_status_from resps maxWait i waited step = ⟨.error .authError, [], 1⟩ := by
  rw [poll_status_from]
  simp [h, hc]

theorem poll_status_from_retry (resps : Nat → Resp) (maxWait i waited step : Nat)
    (h : waited < maxWait) (hret : httpRetriable (resps i).code = true) :
    poll_status_from resps maxWait i waited step =
      ⟨(poll_status_from resps maxWait (i + 1) (waited + step)
          (min (step + 2) STATUS_POLL_STEP_MAX)).result,
       step :: (poll_status_from resps maxWait (i + 1) (waited + step)
          (min (step + 2) STATUS_POLL_STEP_MAX)).sleeps,
       (poll_status_from resps maxWait (i + 1) (waited + step)
          (min (step + 2) STATUS_POLL_STEP_MAX)).requests + 1⟩ := by
  have hc : (resps i).code ≠ 401 := httpRetriable_ne_401 hret
  rw [poll_status_from]
  simp [h, hc, hret]

theorem poll_status_from_nonterminal (resps : Nat → Resp)
    (maxWait i waited step : Nat) (h : waited < maxWait)
    (hlt : (resps i).code < 400) (hret : httpRetriable (resps i).code = false)
    (js : JVal) (hbody : (resps i).body = some js) (status : Option JVal)
    (hstat : poll_status_of_json js = .ok status)
    (hterm : isTerminalStatus status = false) :
    poll_status_from resps maxWait i waited step =
      ⟨(poll_status_from resps maxWait (i + 1) (waited + step)
          (min (step + 2) STATUS_POLL_STEP_MAX)).result,
       step :: (poll_status_from resps maxWait (i + 1) (waited + step)
          (min (step + 2) STATUS_POLL_STEP_MAX)).sleeps,
       (poll_status_from resps maxWait (i + 1) (waited + step)
          (min (step + 2) STATUS_POLL_STEP_MAX)).requests + 1⟩ := by
  have hc : (resps i).code ≠ 401 := by omega
  have herr : ¬ (400 ≤ (resps i).code ∧ (resps i).code < 600) := by omega
  rw [poll_status_from]
  simp [h, hc, hret, herr, hbody, hstat, hterm]

/-- The JSON-body side of `nonTerminalResp`: the body parses and its
extracted task status is none of `done`/`error`/`failed`. -/
def bodyNonTerminal : Option JVal → Bool
  | some js =>
    match poll_status_of_json js with
    | .ok status => !isTerminalStatus status
    | .error _ => false
  | none => false

/-- A poll response that cannot end the poll loop: either retriable
(429/5xx, only sleeps), or a successful JSON response whose extracted task
status is none of `done`/`error`/`failed` (and not a 401, another error
status, a non-JSON body, or a non-dict shape, all of which would raise). -/
def nonTerminalResp (r : Resp) : Bool :=
  httpRetriable r.code || (decide (r.code < 400) && bodyNonTerminal r.body)

theorem poll_status_from_timeout (resps : Nat → Resp) (maxWait : Nat)
    (hnt : ∀ i, nonTerminalResp (resps i) = true) :
    ∀ i waited step,
      (poll_status_from resps maxWait i waited step).result = .ok "timeout"
  | i, waited, step => by
    by_cases h : waited < maxWait
    · by_cases hret : httpRetriable (resps i).code = true
      · rw [poll_status_from_retry resps maxWait i waited step h hret]
        exact poll_status_from_timeout resps maxWait hnt (i + 1) (waited + step)
          (min (step + 2) STATUS_POLL_STEP_MAX)
      · have hret' : httpRetriable (resps i).code = false := by simpa using hret
        have hi := hnt i
        simp only [nonTerminalResp, hret', Bool.false_or, Bool.and_eq_true,
          decide_eq_true_eq] at hi
        obtain ⟨hlt, hrest⟩ := hi
        cases hbody : (resps i).body with
        | none => rw [hbody] at hrest; simp [bodyNonTerminal] at hrest
        | some js =>
          rw [hbody] at hrest
          simp only [bodyNonTerminal] at hrest
          cases hstat : poll_status_of_json js with
          | error e => rw [hstat] at hrest; simp at hrest
          | ok status =>
            rw [hstat] at hrest
            simp only [Bool.not_eq_true'] at hrest
            rw [poll_status_from_nonterminal resps maxWait i waited step h hlt
              hret' js hbody status hstat hrest]
            exact poll_status_from_timeout resps maxWait hnt (i + 1) (waited + step)
              (min (step + 2) STATUS_POLL_STEP_MAX)
    · rw [poll_status_from_stop resps maxWait i waited step h]
termination_by i waited step => (maxWait - waited) * 2 + 1 - min step 1
decreasing_by
  all_goals simp only [STATUS_POLL_STEP_MAX]; omega

/-- C3: when no poll response within the wait budget is terminal (the task
status never reaches `done`/`error`/`failed`), `poll_status` returns the
`"timeout"` sentinel instead of raising; and `fetch_window`, receiving a
task-creation payload (a `taskId` and no rows), then returns normally via
the soft deferral path without writing anything — the window is left for a
future run. -/
theorem poll_timeout_deferred (h : String → String) (jitter : Nat → ℚ)
    (getResps pollResps dlResps : Nat → Resp) (maxWait : Nat) (tid : String)
    (hget : getResps 0 = ⟨200, some (.obj [("data", .obj [("taskId", .str tid)])])⟩)
    (htid : tid.isEmpty = false)
    (hnt : ∀ i, nonTerminalResp (pollResps i) = true) :
    (poll_status pollResps maxWait).result = .ok "timeout" ∧
    fetch_window h getResps jitter pollResps maxWait dlResps =
      .deferred "timeout" := by
  have hto : (poll_status pollResps maxWait).result = .ok "timeout" :=
    poll_status_from_timeout pollResps maxWait hnt 0 0 STATUS_POLL_STEP_MIN
  refine ⟨hto, ?_⟩
  have hrun : http_get getResps jitter =
      ⟨.ok (.obj [("data", .obj [("taskId", .str tid)])]), [], 1⟩ := by
    rw [http_get]
    refine http_get_from_ok getResps jitter 0 2 _ (by omega) ?_ ?_ ?_ ?_ <;>
      rw [hget]
    · simp
    · rfl
    · simp
  rw [fetch_window, hrun]
  have hc : ((extract_rows (.obj [("data", .obj [("taskId", .str tid)])])).isEmpty &&
      (match fetch_window_task_id (.obj [("data", .obj [("taskId", .str tid)])]) with
       | some t => pyTruthy t
       | none => false)) = true := by
    show (true && !tid.isEmpty) = true
    rw [htid]
    rfl
  simp only [hc, if_true, ite_true, if_pos]
  rw [hto]
  simp

/-- Witness for `poll_timeout_deferred`: identity hash, constant-`200`
responses whose status stays `processing`. -/
theorem poll_timeout_deferred_witness :
    ((fun _ : Nat => (⟨200,
        some (.obj [("data", .obj [("taskId", .str "abc")])])⟩ : Resp)) 0 =
      ⟨200, some (.obj [("data", .obj [("taskId", .str "abc")])])⟩) ∧
    ("abc" : String).isEmpty = false ∧
    (∀ i : Nat, nonTerminalResp
      ((fun _ : Nat => (⟨200,
          some (.obj [("data", .obj [("status", .str "processing")])])⟩ : Resp)) i) =
        true) ∧
    (poll_status
        (fun _ => ⟨200, some (.obj [("data", .obj [("status", .str "processing")])])⟩)
        900).result = .ok "timeout" ∧
    fetch_window id
        (fun _ => ⟨200, some (.obj [("data", .obj [("taskId", .str "abc")])])⟩)
        (fun _ => 0)
        (fun _ => ⟨200, some (.obj [("data", .obj [("status", .str "processing")])])⟩)
        900
        (fun _ => ⟨200, some (.arr [])⟩) = .deferred "timeout" := by
  refine ⟨rfl, rfl, fun i => rfl, ?_⟩
  exact poll_timeout_deferred id (fun _ => 0) _ _ _ 900 "abc" rfl rfl (fun i => rfl)

theorem download_report_from_stop (resps : Nat → Resp) (attempt delay : Nat)
    (h : ¬ attempt < DOWNLOAD_RETRIES) :
    download_report_from resps attempt delay =
      ⟨.error (.runtimeError "WB download failed after retries"), [], 0⟩ := by
  rw [download_report_from]
  simp [h]

theorem download_report_from_401 (resps : Nat → Resp) (attempt delay : Nat)
    (h6 : attempt < DOWNLOAD_RETRIES) (hc : (resps attempt).code = 401) :
    download_report_from resps attempt delay = ⟨.error .authError, [], 1⟩ := by
  rw [download_report_from]
  simp [h6, hc]

theorem download_report_from_429 (resps : Nat → Resp) (attempt delay : Nat)
    (h6 : attempt < DOWNLOAD_RETRIES) (hc : (resps attempt).code = 429) :
    download_report_from resps attempt delay =
      ⟨(download_report_from resps (attempt + 1) (min (delay + 15) 120)).result,
       delay :: (download_report_from resps (attempt + 1) (min (delay + 15) 120)).sleeps,
       (download_report_from resps (attempt + 1) (min (delay + 15) 120)).requests + 1⟩ := by
  have hc401 : (resps attempt).code ≠ 401 := by omega
  rw [download_report_from]
  simp [h6, hc401, hc]

theorem download_report_from_ok (resps : Nat → Resp) (attempt delay : Nat)
    (payload : JVal) (h6 : attempt < DOWNLOAD_RETRIES)
    (hc401 : (resps attempt).code ≠ 401) (hc429 : (resps attempt).code ≠ 429)
    (herr : ¬ (400 ≤ (resps attempt).code ∧ (resps attempt).code < 600))
    (hbody : (resps attempt).body = some payload) :
    download_report_from resps attempt delay =
      ⟨.ok (extract_rows payload), [], 1⟩ := by
  rw [download_report_from]
  simp [h6, hc401, hc429, herr, hbody]

/-- C4: in each of `http_get`, `poll_status` and `download_report`, a 401
response is surfaced immediately via `raise_for_status`: from any reachable
loop state, a 401 ends the call with the auth error, performs no sleep, and
issues no request beyond the one that returned the 401. -/
theorem auth_failure_short_circuits :
    (∀ resps jitter attempt delay, attempt < 6 → (resps attempt).code = 401 →
      http_get_from resps jitter attempt delay = ⟨.authError, [], 1⟩) ∧
    (∀ resps maxWait i waited step, waited < maxWait → (resps i).code = 401 →
      poll_status_from resps maxWait i waited step = ⟨.error .authError, [], 1⟩) ∧
    (∀ resps attempt delay, attempt < DOWNLOAD_RETRIES → (resps attempt).code = 401 →
      download_report_from resps attempt delay = ⟨.error .authError, [], 1⟩) :=
  ⟨fun resps jitter attempt delay h6 hc =>
      http_get_from_401 resps jitter attempt delay h6 hc,
   fun resps maxWait i waited step hw hc =>
      poll_status_from_401 resps maxWait i waited step hw hc,
   fun resps attempt delay h6 hc =>
      download_report_from_401 resps attempt delay h6 hc⟩

/-- Witness for `auth_failure_short_circuits`: a remote that always answers
401, checked at the initial state of each of the three loops. -/
theorem auth_failure_short_circuits_witness :
    (0 : Nat) < 6 ∧ (0 : Nat) < 900 ∧ (0 : Nat) < DOWNLOAD_RETRIES ∧
    http_get_from (fun _ => ⟨401, none⟩) (fun _ => 0) 0 2 = ⟨.authError, [], 1⟩ ∧
    poll_status_from (fun _ => ⟨401, none⟩) 900 0 0 5 =
      ⟨.error .authError, [], 1⟩ ∧
    download_report_from (fun _ => ⟨401, none⟩) 0 65 =
      ⟨.error .authError, [], 1⟩ :=
  ⟨by decide, by decide, by decide,
   auth_failure_short_circuits.1 (fun _ => ⟨401, none⟩) (fun _ => 0) 0 2
     (by decide) rfl,
   auth_failure_short_circuits.2.1 (fun _ => ⟨401, none⟩) 900 0 0 5
     (by decide) rfl,
   auth_failure_short_circuits.2.2 (fun _ => ⟨401, none⟩) 0 65
     (by decide) rfl⟩

/-- The download cooldown before the `i`-th sleep when iterating
`delay = min(delay + 15, 120)` (source line 165) from `delay`. -/
def dlDelay (delay : Nat) : Nat → Nat
  | 0 => delay
  | i + 1 => min (dlDelay delay i + 15) 120

theorem dlDelay_shift (delay i : Nat) :
    dlDelay delay (i + 1) = dlDelay (min (delay + 15) 120) i := by
  induction i with
  | zero => rfl
  | succ n ih => rw [dlDelay, ih, dlDelay]

theorem download_report_from_429_prefix (resps : Nat → Resp) :
    ∀ n attempt delay, attempt + n ≤ DOWNLOAD_RETRIES →
      (∀ i, i < n → (resps (attempt + i)).code = 429) →
      download_report_from resps attempt delay =
        ⟨(download_report_from resps (attempt + n) (dlDelay delay n)).result,
         (List.range n).map (fun i => dlDelay delay i) ++
           (download_report_from resps (attempt + n) (dlDelay delay n)).sleeps,
         n + (download_report_from resps (attempt + n) (dlDelay delay n)).requests⟩ := by
  intro n
  induction n with
  | zero =>
    intro attempt delay _ _
    simp [dlDelay]
  | succ m ih =>
    intro attempt delay hle hpre
    have hc : (resps attempt).code = 429 := by simpa using hpre 0 (Nat.succ_pos m)
    rw [download_report_from_429 resps attempt delay
      (by simp only [DOWNLOAD_RETRIES] at hle ⊢; omega) hc]
    have ihx := ih (attempt + 1) (min (delay + 15) 120)
      (by simp only [DOWNLOAD_RETRIES] at hle ⊢; omega)
      (fun i hi => by
        have := hpre (i + 1) (by omega)
        simpa [Nat.add_assoc, Nat.add_comm 1 i] using this)
    rw [ihx]
    dsimp only
    have harr : attempt + 1 + m = attempt + (m + 1) := by omega
    have hdel : dlDelay (min (delay + 15) 120) m = dlDelay delay (m + 1) :=
      (dlDelay_shift delay m).symm
    rw [harr, hdel]
    have key : (List.range (m + 1)).map (fun i => dlDelay delay i) =
        delay :: (List.range m).map (fun i => dlDelay (min (delay + 15) 120) i) := by
      rw [List.range_succ_eq_map, List.map_cons, List.map_map]
      refine congrArg₂ List.cons rfl ?_
      refine List.map_congr_left (fun a _ => ?_)
      simp only [Function.comp_apply, Nat.succ_eq_add_one]
      rw [dlDelay_shift delay a]
    rw [key, List.cons_append]
    congr 1
    omega

/-- C8: `extract_rows` returns a bare list as-is; an object wrapping a list
under the `data` key — or, for an object without rows under `data`, under a
probe key such as `rows` — yields the inner list; any other parsed shape
yields zero rows without raising; and `download_report` returns the
extracted rows of its first response that is neither a 429 nor an error
status, on that same attempt — it never issues another request because of
a payload shape. -/
theorem download_payload_shapes :
    (∀ xs, extract_rows (.arr xs) = xs) ∧
    (∀ fields xs,
      fields.find? (fun p => p.1 == "data") = some ("data", .arr xs) →
      extract_rows (.obj fields) = xs) ∧
    (∀ xs, extract_rows (.obj [("rows", .arr xs)]) = xs) ∧
    (extract_rows .null = [] ∧ (∀ s, extract_rows (.str s) = []) ∧
      (∀ n, extract_rows (.num n) = []) ∧ (∀ b, extract_rows (.bool b) = []) ∧
      (∀ s, extract_rows (.obj [("data", .str s)]) = [])) ∧
    (∀ resps k payload, k < DOWNLOAD_RETRIES →
      (∀ i, i < k → (resps i).code = 429) →
      (resps k).code ≠ 429 → (resps k).code < 400 →
      (resps k).body = some payload →
      download_report resps =
        ⟨.ok (extract_rows payload),
         (List.range k).map (fun i => dlDelay 65 i), k + 1⟩) := by
  refine ⟨fun xs => rfl, ?_, fun xs => rfl,
    ⟨rfl, fun s => rfl, fun n => rfl, fun b => rfl, fun s => rfl⟩, ?_⟩
  · intro fields xs hfind
    simp [extract_rows, hfind]
  · intro resps k payload hk hpre hc429 hlt hbody
    have hcov := download_report_from_429_prefix resps k 0 65
      (by omega)
      (fun i hi => by
        have := hpre i hi
        simpa using this)
    have hstep : download_report_from resps (0 + k) (dlDelay 65 k) =
        ⟨.ok (extract_rows payload), [], 1⟩ := by
      rw [Nat.zero_add]
      exact download_report_from_ok resps k (dlDelay 65 k) payload hk
        (by omega) hc429 (by omega) hbody
    rw [download_report, hcov, hstep]
    refine congrArg₂ (fun l n => DownloadRun.mk _ l n) ?_ rfl
    simp only [List.append_nil]

/-- Witness for `download_payload_shapes`: the `data`-wrapped object, and a
download run with one 429 then a `200` whose body is a bare list. -/
theorem download_payload_shapes_witness :
    ([("data", JVal.arr [.num 1])].find? (fun p => p.1 == "data") =
      some ("data", JVal.arr [.num 1])) ∧
    extract_rows (.obj [("data", JVal.arr [.num 1])]) = [.num 1] ∧
    ((1 : Nat) < DOWNLOAD_RETRIES ∧
     download_report
        (fun i => if i = 0 then ⟨429, none⟩ else ⟨200, some (.arr [.num 3])⟩) =
       ⟨.ok (extract_rows (.arr [.num 3])),
        (List.range 1).map (fun i => dlDelay 65 i), 1 + 1⟩) :=
  ⟨rfl,
   download_payload_shapes.2.1 [("data", JVal.arr [.num 1])] [.num 1] rfl,
   by decide,
   download_payload_shapes.2.2.2.2
     (fun i => if i = 0 then ⟨429, none⟩ else ⟨200, some (.arr [.num 3])⟩)
     1 (.arr [.num 3]) (by decide)
     (fun i hi => by interval_cases i <;> rfl)
     (by decide) (by decide) rfl⟩

/-! ### Orchestrator window retry loop (source lines 214-249) -/

/-- The per-window retry loop shared verbatim by `backfill`, `sync`,
`mode_range` and (via `mode_range`) `since` (source lines 218-222, 229-233,
240-244): `for attempt in range(3): try: fetch_window(a, b); break
except Exception: time.sleep(10)`.  `outcome a` is the result of the
`a`-th `fetch_window` call for this window (`error` when it raises, which
the bare `except` always catches); returns the number of `fetch_window`
calls made from attempt `a` onwards and the sleeps performed. -/
def window_attempts (outcome : Nat → FetchOutcome) (a : Nat) : Nat × List Nat :=
  if _h : a < 3 then
    match outcome a with
    | .error _ =>
      ((window_attempts outcome (a + 1)).1 + 1,
       10 :: (window_attempts outcome (a + 1)).2)
    | _ => (1, [])
  else (0, [])
termination_by 3 - a

/-- The window sweep shared by all four modes: `for a, b in
chunks_8days(start, end): <retry loop>` (`backfill` uses Jan 1 - Dec 31 of
the year, `sync` today-days_back+1 to today, `range`/`since` the given
bounds; only the bounds differ).  `outcome w a` is the result of the `a`-th
`fetch_window` attempt for window `w`. -/
def run_windows (d1 d2 : Nat) (outcome : Nat × Nat → Nat → FetchOutcome) :
    List ((Nat × Nat) × Nat × List Nat) :=
  (chunks_8days d1 d2).map (fun w => (w, window_attempts (outcome w) 0))

theorem window_attempts_le (outcome : Nat → FetchOutcome) :
    ∀ a, (window_attempts outcome a).1 ≤ 3 - a ∧
      ∀ s ∈ (window_attempts outcome a).2, s = 10
  | a => by
    by_cases h : a < 3
    · cases hc : outcome a with
      | error e =>
        have heq : window_attempts outcome a =
            ((window_attempts outcome (a + 1)).1 + 1,
             10 :: (window_attempts outcome (a + 1)).2) := by
          rw [window_attempts]
          simp [h, hc]
        obtain ⟨ih1, ih2⟩ := window_attempts_le outcome (a + 1)
        rw [heq]
        refine ⟨?_, ?_⟩
        · show (window_attempts outcome (a + 1)).1 + 1 ≤ 3 - a
          omega
        · intro s hs
          rcases List.mem_cons.1 hs with hs | hs
          · exact hs
          · exact ih2 s hs
      | wrote rows =>
        have heq : window_attempts outcome a = (1, []) := by
          rw [window_attempts]
          simp [h, hc]
        rw [heq]
        exact ⟨by omega, by simp⟩
      | deferred st =>
        have heq : window_attempts outcome a = (1, []) := by
          rw [window_attempts]
          simp [h, hc]
        rw [heq]
        exact ⟨by omega, by simp⟩
    · have heq : window_attempts outcome a = (0, []) := by
        rw [window_attempts]
        simp [h]
      rw [heq]
      exact ⟨by omega, by simp⟩
termination_by a => 3 - a

theorem window_attempts_all_fail (outcome : Nat → FetchOutcome) :
    ∀ a, a ≤ 3 → (∀ b, a ≤ b → b < 3 → ∃ err, outcome b = .error err) →
      window_attempts outcome a = (3 - a, List.replicate (3 - a) 10)
  | a => by
    intro ha hfail
    rw [window_attempts]
    by_cases h : a < 3
    · obtain ⟨err, herr⟩ := hfail a (le_refl a) h
      simp only [h, dif_pos, herr]
      have ih := window_attempts_all_fail outcome (a + 1) (by omega)
        (fun b hb1 hb2 => hfail b (by omega) hb2)
      rw [ih]
      have h3 : 3 - a = (3 - (a + 1)) + 1 := by omega
      rw [h3, List.replicate_succ]
    · have h3 : 3 - a = 0 := by omega
      simp [h, h3]
termination_by a => 3 - a

theorem window_attempts_first_success (outcome : Nat → FetchOutcome) :
    ∀ j a, a + j < 3 → (∀ b, b < j → ∃ err, outcome (a + b) = .error err) →
      (∀ err, outcome (a + j) ≠ .error err) →
      window_attempts outcome a = (j + 1, List.replicate j 10) := by
  intro j
  induction j with
  | zero =>
    intro a ha _ hsucc
    rw [window_attempts]
    simp only [show a < 3 by omega, dif_pos]
    cases hc : outcome a with
    | error e => exact absurd (by simpa using hc) (hsucc e)
    | wrote rows => rfl
    | deferred st => rfl
  | succ m ih =>
    intro a ha hfail hsucc
    obtain ⟨err, herr⟩ := by
      have := hfail 0 (Nat.succ_pos m)
      simpa using this
    rw [window_attempts]
    simp only [show a < 3 by omega, dif_pos, herr]
    have ihx := ih (a + 1) (by omega)
      (fun b hb => by
        have := hfail (b + 1) (by omega)
        simpa [Nat.add_assoc, Nat.add_comm 1 b] using this)
      (by
        intro e he
        refine hsucc e ?_
        rw [show a + (m + 1) = a + 1 + m by omega]
        exact he)
    rw [ihx, List.replicate_succ]

/-- C5: in every mode (`backfill`, `sync`, `range`, `since` — all four run
this identical loop over their planned windows), the sweep visits every
planned window in order, so no `fetch_window` exception aborts the rest of
the run; each window gets at most 3 attempts, every sleep between attempts
is exactly 10 seconds; a window all of whose attempts raise gets exactly 3
attempts and sleeps `[10, 10, 10]` and the sweep still lists every later
window; a window whose first success is attempt `a < 3` gets `a + 1`
attempts after `a` failures. -/
theorem run_windows_retry (d1 d2 : Nat)
    (outcome : Nat × Nat → Nat → FetchOutcome) :
    ((run_windows d1 d2 outcome).map Prod.fst = chunks_8days d1 d2) ∧
    (∀ e ∈ run_windows d1 d2 outcome, e.2.1 ≤ 3 ∧ ∀ s ∈ e.2.2, s = 10) ∧
    (∀ w, (∀ a, a < 3 → ∃ err, outcome w a = .error err) →
      window_attempts (outcome w) 0 = (3, [10, 10, 10])) ∧
    (∀ w a, a < 3 → (∀ b, b < a → ∃ err, outcome w b = .error err) →
      (∀ err, outcome w a ≠ .error err) →
      window_attempts (outcome w) 0 = (a + 1, List.replicate a 10)) := by
  refine ⟨?_, ?_, ?_, ?_⟩
  · simp only [run_windows, List.map_map]
    have hcomp : (Prod.fst ∘ fun w => (w, window_attempts (outcome w) 0)) =
        (id : Nat × Nat → Nat × Nat) := rfl
    rw [hcomp, List.map_id]
  · intro e he
    simp only [run_windows, List.mem_map] at he
    obtain ⟨w, _, hw⟩ := he
    subst hw
    obtain ⟨h1, h2⟩ := window_attempts_le (outcome w) 0
    refine ⟨?_, ?_⟩
    · show (window_attempts (outcome w) 0).1 ≤ 3
      omega
    · show ∀ s ∈ (window_attempts (outcome w) 0).2, s = 10
      exact h2
  · intro w hfail
    have := window_attempts_all_fail (outcome w) 0 (by omega)
      (fun b _ hb => hfail b hb)
    simpa using this
  · intro w a ha hfail hsucc
    have := window_attempts_first_success (outcome w) a 0 (by omega)
      (fun b hb => by simpa using hfail b hb)
      (by simpa using hsucc)
    simpa using this

/-- Witness for `run_windows_retry` on a 20-day sweep where the first
window always fails, the second succeeds on the third attempt and the rest
succeed immediately. -/
theorem run_windows_retry_witness :
    ((run_windows 0 19 (fun w a =>
        if w.1 = 0 then .error (.runtimeError "boom")
        else if w.1 = 8 && a < 2 then .error (.runtimeError "boom")
        else .wrote [])).map Prod.fst = chunks_8days 0 19) ∧
    (∀ a, a < 3 → ∃ err, (fun a =>
        if (0 : Nat) = 0 then FetchOutcome.error (.runtimeError "boom")
        else .wrote []) a = .error err) ∧
    window_attempts (fun _ => .error (.runtimeError "boom")) 0 =
      (3, [10, 10, 10]) ∧
    window_attempts (fun a =>
        if a < 2 then .error (.runtimeError "boom") else .wrote []) 0 =
      (2 + 1, List.replicate 2 10) :=
  ⟨(run_windows_retry 0 19 _).1,
   fun a _ => ⟨.runtimeError "boom", rfl⟩,
   (run_windows_retry 0 19 (fun _ _ => .error (.runtimeError "boom"))).2.2.1
     (0, 7) (fun a ha => ⟨.runtimeError "boom", rfl⟩),
   (run_windows_retry 0 19 (fun _ a =>
       if a < 2 then .error (.runtimeError "boom") else .wrote [])).2.2.2
     (0, 7) 2 (by decide)
     (fun b hb => ⟨.runtimeError "boom", by interval_cases b <;> rfl⟩)
     (fun err h => by simp at h)⟩

/-! ### Configuration and entry point (source lines 10-13 and 252-273) -/

/-- `os.environ[name]`: the value, or a `KeyError` carrying the variable
name. -/
def environ_get (env : List (String × String)) (name : String) :
    Except String String :=
  match env.find? (fun p => p.1 == name) with
  | some p => .ok p.2
  | none => .error name

/-- The module-level credential lookups (source lines 11-13), evaluated
at import time, before the `__main__` block runs. -/
def module_init (env : List (String × String)) :
    Except String (String × String × String) :=
  match environ_get env "WB_API_TOKEN" with
  | .error n => .error n
  | .ok t =>
    match environ_get env "SUPABASE_URL" with
    | .error n => .error n
    | .ok u =>
      match environ_get env "SUPABASE_SERVICE_ROLE_KEY" with
      | .error n => .error n
      | .ok k => .ok (t, u, k)

/-- Observable outcome of running the script as `__main__`:
`usage` covers the usage/unknown-mode exits (status 1),
`uncaughtKeyError` is a `KeyError` escaping with a traceback (status 1),
`configMessage` is the `Missing required environment variable: <name>`
report followed by `sys.exit(2)` (source lines 270-273), `ran` means a mode
function was entered. -/
inductive ProcResult where
  | usage (exitCode : Nat)
  | uncaughtKeyError (name : String)
  | configMessage (name : String) (exitCode : Nat)
  | ran
deriving DecidableEq

/-- The process, `argv` being `sys.argv[1:]`: the module body evaluates the
three `os.environ[...]` lookups (lines 11-13) before the
`if __name__ == "__main__"` block is reached, so a missing credential
raises `KeyError` at import time, outside the `try/except KeyError` of
lines 258-273; that handler — the only place the
`Missing required environment variable` message is printed — only catches
a `KeyError` raised while a mode function runs, and the mode functions
perform no environment lookups. -/
def run_main (env : List (String × String)) (argv : List String) : ProcResult :=
  match module_init env with
  | .error name => .uncaughtKeyError name
  | .ok _ =>
    match argv with
    | [] => .usage 1
    | mode :: _ =>
      if mode = "backfill" ∨ mode = "sync" ∨ mode = "range" ∨ mode = "since" then
        .ran
      else .usage 1

/-- C10 (divergence witness): with `WB_API_TOKEN` unset and the other
credentials set, the script dies with an uncaught `KeyError` at import
(traceback, exit status 1) before any network request, and never produces
the `Missing required environment variable` report: the handler that would
print it is unreachable for the module-level credential lookups. -/
theorem config_missing_uncaught :
    run_main [("SUPABASE_URL", "u"), ("SUPABASE_SERVICE_ROLE_KEY", "k")]
        ["range", "2024-01-01", "2024-01-02"] =
      .uncaughtKeyError "WB_API_TOKEN" ∧
    ∀ name code,
      run_main [("SUPABASE_URL", "u"), ("SUPABASE_SERVICE_ROLE_KEY", "k")]
          ["range", "2024-01-01", "2024-01-02"] ≠
        .configMessage name code :=
  ⟨rfl, fun name code h => ProcResult.noConfusion h⟩

/-- Witness for `config_missing_uncaught` at a concrete message payload. -/
theorem config_missing_uncaught_witness :
    run_main [("SUPABASE_URL", "u"), ("SUPABASE_SERVICE_ROLE_KEY", "k")]
        ["range", "2024-01-01", "2024-01-02"] ≠
      .configMessage "WB_API_TOKEN" 2 :=
  config_missing_uncaught.2 "WB_API_TOKEN" 2

/-! ### Sink writer (`upsert`, source lines 94-110) -/

/-- A normalized record (a Python dict). -/
abbrev NRow := List (String × JVal)

/-- The natural key of a record,
`(r.get("date"), r.get("nm_id"), r.get("chrt_id"), r.get("office_id"))`
(source line 100); `dict.get` defaults to `None`. -/
def natKey (r : NRow) : JVal × JVal × JVal × JVal :=
  (pyGet r "date", pyGet r "nm_id", pyGet r "chrt_id", pyGet r "office_id")

/-- The key type of the dedup dict. -/
abbrev NatKey := JVal × JVal × JVal × JVal

/-- `dedup[key] = r` on a Python dict modelled as an association list in
insertion order: an existing key keeps its position and receives the new
value, a new key is appended at the end. -/
def dictInsert (k : NatKey) (v : NRow) :
    List (NatKey × NRow) → List (NatKey × NRow)
  | [] => [(k, v)]
  | p :: ps => if p.1 = k then (k, v) :: ps else p :: dictInsert k v ps

/-- The dedup loop of `upsert` (source lines 98-101):
`for r in rows: dedup[natKey r] = r`. -/
def dedupRows (rows : List NRow) : List (NatKey × NRow) :=
  rows.foldl (fun d r => dictInsert (natKey r) r d) []

/-- `clean_rows = list(dedup.values())` (source line 102). -/
def clean_rows (rows : List NRow) : List NRow := (dedupRows rows).map Prod.snd

/-- The chunk slicing `clean_rows[i:i+BATCH_SIZE]` of the write loop
(source lines 105-106). -/
def upsertChunks (l : List NRow) : List (List NRow) :=
  if h : l.isEmpty then [] else
    l.take BATCH_SIZE :: upsertChunks (l.drop BATCH_SIZE)
termination_by l.length
decreasing_by
  have hne : l ≠ [] := by simpa [List.isEmpty_iff] using h
  have hpos : 0 < l.length := List.length_pos.2 hne
  simp only [List.length_drop, BATCH_SIZE]
  omega

/-- `upsert` (source lines 94-110), as what the sink receives: the chunk
list and the conflict target `on_conflict="date,nm_id,chrt_id,office_id"`
(source line 109).  The early `if not rows: return` writes nothing, which
coincides with the empty chunk list. -/
def upsert (rows : List NRow) : List (List NRow) × String :=
  (upsertChunks (clean_rows rows), "date,nm_id,chrt_id,office_id")

/-- Lookup in the dedup dict. -/
def lookupD (k : NatKey) (d : List (NatKey × NRow)) : Option NRow :=
  (d.find? (fun p => decide (p.1 = k))).map Prod.snd

theorem lookupD_cons_of_pos (k : NatKey) (p : NatKey × NRow)
    (d : List (NatKey × NRow)) (h : p.1 = k) :
    lookupD k (p :: d) = some p.2 := by
  unfold lookupD
  rw [List.find?_cons_of_pos d (decide_eq_true h)]
  rfl

theorem lookupD_cons_of_neg (k : NatKey) (p : NatKey × NRow)
    (d : List (NatKey × NRow)) (h : ¬ p.1 = k) :
    lookupD k (p :: d) = lookupD k d := by
  unfold lookupD
  rw [List.find?_cons_of_neg d (by simpa using h)]

theorem lookupD_dictInsert (k k' : NatKey) (v : NRow) :
    ∀ d, lookupD k (dictInsert k' v d) =
      if k = k' then some v else lookupD k d
  | [] => by
    by_cases h : k = k'
    · rw [show dictInsert k' v [] = [(k', v)] from rfl,
        lookupD_cons_of_pos k (k', v) [] h.symm, if_pos h]
    · rw [show dictInsert k' v [] = [(k', v)] from rfl,
        lookupD_cons_of_neg k (k', v) [] (fun hc => h hc.symm), if_neg h]
  | p :: ps => by
    by_cases h1 : p.1 = k'
    · have hins : dictInsert k' v (p :: ps) = (k', v) :: ps := by
        simp [dictInsert, h1]
      rw [hins]
      by_cases h2 : k = k'
      · rw [lookupD_cons_of_pos k (k', v) ps h2.symm, if_pos h2]
      · rw [lookupD_cons_of_neg k (k', v) ps (fun hc => h2 hc.symm), if_neg h2,
          lookupD_cons_of_neg k p ps (fun hc => h2 (by rw [← hc, h1]))]
    · have hins : dictInsert k' v (p :: ps) = p :: dictInsert k' v ps := by
        simp [dictInsert, h1]
      rw [hins]
      by_cases h2 : p.1 = k
      · have hkk : ¬ k = k' := fun hc => h1 (by rw [h2, hc])
        rw [lookupD_cons_of_pos k p _ h2, if_neg hkk,
          lookupD_cons_of_pos k p ps h2]
      · rw [lookupD_cons_of_neg k p _ h2, lookupD_dictInsert k k' v ps]
        by_cases h3 : k = k'
        · rw [if_pos h3, if_pos h3]
        · rw [if_neg h3, if_neg h3, lookupD_cons_of_neg k p ps h2]

theorem lookupD_dedup_aux (k : NatKey) :
    ∀ (rows : List NRow) (d : List (NatKey × NRow)),
      lookupD k (rows.foldl (fun d r => dictInsert (natKey r) r d) d) =
        ((rows.reverse.find? (fun r => decide (natKey r = k))).or (lookupD k d))
  | [], d => by simp
  | r :: rows, d => by
    rw [List.foldl_cons, lookupD_dedup_aux k rows (dictInsert (natKey r) r d),
      List.reverse_cons, List.find?_append, lookupD_dictInsert k (natKey r) r d]
    cases hA : rows.reverse.find? (fun r => decide (natKey r = k)) with
    | some x => simp [Option.or]
    | none =>
      by_cases hk : k = natKey r <;>
        simp [Option.or, List.find?, hk, eq_comm]

/-- Well-formedness of the dedup dict: keys are distinct and each entry's
key is its record's natural key. -/
def WFDict (d : List (NatKey × NRow)) : Prop :=
  (d.map Prod.fst).Nodup ∧ ∀ p ∈ d, p.1 = natKey p.2

theorem mem_keys_dictInsert (k : NatKey) (v : NRow) :
    ∀ d x, x ∈ (dictInsert k v d).map Prod.fst ↔ x ∈ d.map Prod.fst ∨ x = k
  | [], x => by simp [dictInsert]
  | p :: ps, x => by
    by_cases h1 : p.1 = k
    · subst h1
      simp [dictInsert]
      tauto
    · have ih := mem_keys_dictInsert k v ps x
      simp [dictInsert, h1, ih]
      tauto

theorem dictInsert_WF (v : NRow) :
    ∀ d, WFDict d → WFDict (dictInsert (natKey v) v d)
  | [], _ => by
    refine ⟨by simp [dictInsert], ?_⟩
    intro p hp
    simp only [dictInsert, List.mem_singleton] at hp
    subst hp
    rfl
  | p :: ps, hwf => by
    obtain ⟨hnd, hent⟩ := hwf
    rw [List.map_cons, List.nodup_cons] at hnd
    by_cases h1 : p.1 = natKey v
    · refine ⟨?_, ?_⟩
      · simp only [dictInsert, h1, if_pos, List.map_cons, List.nodup_cons]
        rw [← h1]
        exact hnd
      · intro q hq
        simp only [dictInsert, h1, if_pos, List.mem_cons] at hq
        rcases hq with hq | hq
        · subst hq; rfl
        · exact hent q (List.mem_cons_of_mem p hq)
    · have ihwf : WFDict ps :=
        ⟨hnd.2, fun q hq => hent q (List.mem_cons_of_mem p hq)⟩
      have ih := dictInsert_WF v ps ihwf
      refine ⟨?_, ?_⟩
      · simp only [dictInsert, h1, if_neg, not_false_iff, List.map_cons,
          List.nodup_cons]
        refine ⟨?_, ih.1⟩
        intro hc
        rcases (mem_keys_dictInsert (natKey v) v ps p.1).1 hc with hc | hc
        · exact hnd.1 hc
        · exact h1 hc
      · intro q hq
        simp only [dictInsert, h1, if_neg, not_false_iff, List.mem_cons] at hq
        rcases hq with hq | hq
        · subst hq
          exact hent q (List.mem_cons_self _ _)
        · exact ih.2 q hq

theorem dedupRows_WF_aux :
    ∀ (rows : List NRow) (d : List (NatKey × NRow)), WFDict d →
      WFDict (rows.foldl (fun d r => dictInsert (natKey r) r d) d)
  | [], d, h => h
  | r :: rows, d, h => by
    rw [List.foldl_cons]
    exact dedupRows_WF_aux rows (dictInsert (natKey r) r d) (dictInsert_WF r d h)

theorem dedupRows_WF (rows : List NRow) : WFDict (dedupRows rows) :=
  dedupRows_WF_aux rows [] ⟨List.nodup_nil, by simp⟩

theorem filter_values_eq (k : NatKey) :
    ∀ d, WFDict d →
      (d.map Prod.snd).filter (fun r => decide (natKey r = k)) =
        (lookupD k d).toList
  | [], _ => by simp [lookupD]
  | p :: ps, hwf => by
    obtain ⟨hnd, hent⟩ := hwf
    rw [List.map_cons, List.nodup_cons] at hnd
    have hpk : p.1 = natKey p.2 := hent p (List.mem_cons_self _ _)
    have ihwf : WFDict ps :=
      ⟨hnd.2, fun q hq => hent q (List.mem_cons_of_mem p hq)⟩
    by_cases h1 : p.1 = k
    · have hk2 : natKey p.2 = k := by rw [← hpk, h1]
      have hrest : (ps.map Prod.snd).filter (fun r => decide (natKey r = k)) = [] := by
        rw [List.filter_eq_nil]
        intro r hr
        simp only [List.mem_map] at hr
        obtain ⟨q, hq, hqr⟩ := hr
        subst hqr
        have hq1 : q.1 = natKey q.2 := hent q (List.mem_cons_of_mem p hq)
        have hq1k : q.1 ≠ k := by
          intro hc
          refine hnd.1 ?_
          rw [← h1] at hc
          exact hc ▸ List.mem_map_of_mem Prod.fst hq
        simp only [decide_eq_true_eq]
        rw [← hq1]
        exact hq1k
      simp [lookupD, List.find?, h1, hk2, List.filter_cons, hrest]
    · have hk2 : natKey p.2 ≠ k := by rw [← hpk]; exact h1
      have ih := filter_values_eq k ps ihwf
      simp [lookupD, List.find?, h1, hk2, List.filter_cons, ih]

theorem upsertChunks_le_aux :
    ∀ n (l : List NRow), l.length ≤ n →
      ∀ c ∈ upsertChunks l, c.length ≤ BATCH_SIZE := by
  intro n
  induction n with
  | zero =>
    intro l hl c hc
    have he : l = [] := List.length_eq_zero.1 (Nat.le_zero.1 hl)
    subst he
    rw [upsertChunks] at hc
    simp at hc
  | succ m ih =>
    intro l hl c hc
    rw [upsertChunks] at hc
    split at hc
    · simp at hc
    · rename_i h
      have hne : l ≠ [] := by simpa [List.isEmpty_iff] using h
      have hpos : 0 < l.length := List.length_pos.2 hne
      rcases List.mem_cons.1 hc with hc | hc
      · subst hc
        simp only [BATCH_SIZE, List.length_take]
        omega
      · refine ih (l.drop BATCH_SIZE) ?_ c hc
        simp only [List.length_drop, BATCH_SIZE]
        omega

theorem upsertChunks_le (l : List NRow) :
    ∀ c ∈ upsertChunks l, c.length ≤ BATCH_SIZE :=
  upsertChunks_le_aux l.length l (le_refl _)

theorem upsertChunks_flatten_aux :
    ∀ n (l : List NRow), l.length ≤ n → (upsertChunks l).flatten = l := by
  intro n
  induction n with
  | zero =>
    intro l hl
    have he : l = [] := List.length_eq_zero.1 (Nat.le_zero.1 hl)
    subst he
    rw [upsertChunks]
    simp
  | succ m ih =>
    intro l hl
    rw [upsertChunks]
    split
    · rename_i h
      have he : l = [] := List.isEmpty_iff.1 h
      simp [he]
    · rename_i h
      have hne : l ≠ [] := by simpa [List.isEmpty_iff] using h
      have hpos : 0 < l.length := List.length_pos.2 hne
      rw [List.flatten_cons, ih (l.drop BATCH_SIZE) ?_, List.take_append_drop]
      simp only [List.length_drop, BATCH_SIZE]
      omega

theorem upsertChunks_flatten (l : List NRow) : (upsertChunks l).flatten = l :=
  upsertChunks_flatten_aux l.length l (le_refl _)

/-- C6: for every batch, the sink writer keeps exactly one record per
natural key — the records of `clean_rows` with a given key are exactly the
last record of that key in batch order (the first match of a reverse
search), so two records sharing the key yield only the later one — and the
records are written in chunks of at most `BATCH_SIZE = 1000` whose
concatenation is exactly `clean_rows`, with the conflict target exactly
`date,nm_id,chrt_id,office_id`. -/
theorem upsert_natural_key (rows : List NRow) :
    (∀ k, (clean_rows rows).filter (fun r => decide (natKey r = k)) =
      (rows.reverse.find? (fun r => decide (natKey r = k))).toList) ∧
    (∀ c ∈ (upsert rows).1, c.length ≤ BATCH_SIZE) ∧
    ((upsert rows).1.flatten = clean_rows rows) ∧
    ((upsert rows).2 = "date,nm_id,chrt_id,office_id") := by
  refine ⟨?_, ?_, ?_, rfl⟩
  · intro k
    have h1 := filter_values_eq k (dedupRows rows) (dedupRows_WF rows)
    have h2 := lookupD_dedup_aux k rows []
    rw [show clean_rows rows = (dedupRows rows).map Prod.snd from rfl, h1]
    rw [show dedupRows rows =
      rows.foldl (fun d r => dictInsert (natKey r) r d) [] from rfl, h2]
    simp [lookupD]
  · intro c hc
    exact upsertChunks_le (clean_rows rows) c hc
  · exact upsertChunks_flatten (clean_rows rows)

/-- Witness for `upsert_natural_key`: two records sharing the natural key
but differing in `warehouse`; only the later reaches the sink. -/
theorem upsert_natural_key_witness :
    (clean_rows
        [[("date", JVal.str "2024-01-01"), ("nm_id", JVal.num 1),
          ("chrt_id", JVal.num 2), ("office_id", JVal.num 3),
          ("warehouse", JVal.str "A")],
         [("date", JVal.str "2024-01-01"), ("nm_id", JVal.num 1),
          ("chrt_id", JVal.num 2), ("office_id", JVal.num 3),
          ("warehouse", JVal.str "B")]]).filter
        (fun r => decide (natKey r =
          (JVal.str "2024-01-01", JVal.num 1, JVal.num 2, JVal.num 3))) =
      (([[("date", JVal.str "2024-01-01"), ("nm_id", JVal.num 1),
          ("chrt_id", JVal.num 2), ("office_id", JVal.num 3),
          ("warehouse", JVal.str "A")],
         [("date", JVal.str "2024-01-01"), ("nm_id", JVal.num 1),
          ("chrt_id", JVal.num 2), ("office_id", JVal.num 3),
          ("warehouse", JVal.str "B")]] : List NRow).reverse.find?
        (fun r => decide (natKey r =
          (JVal.str "2024-01-01", JVal.num 1, JVal.num 2, JVal.num 3)))).toList ∧
    (([[("date", JVal.str "2024-01-01"), ("nm_id", JVal.num 1),
        ("chrt_id", JVal.num 2), ("office_id", JVal.num 3),
        ("warehouse", JVal.str "A")],
       [("date", JVal.str "2024-01-01"), ("nm_id", JVal.num 1),
        ("chrt_id", JVal.num 2), ("office_id", JVal.num 3),
        ("warehouse", JVal.str "B")]] : List NRow).reverse.find?
        (fun r => decide (natKey r =
          (JVal.str "2024-01-01", JVal.num 1, JVal.num 2, JVal.num 3))) =
      some [("date", JVal.str "2024-01-01"), ("nm_id", JVal.num 1),
            ("chrt_id", JVal.num 2), ("office_id", JVal.num 3),
            ("warehouse", JVal.str "B")]) ∧
    (upsert
        [[("date", JVal.str "2024-01-01"), ("nm_id", JVal.num 1),
          ("chrt_id", JVal.num 2), ("office_id", JVal.num 3),
          ("warehouse", JVal.str "A")],
         [("date", JVal.str "2024-01-01"), ("nm_id", JVal.num 1),
          ("chrt_id", JVal.num 2), ("office_id", JVal.num 3),
          ("warehouse", JVal.str "B")]]).2 = "date,nm_id,chrt_id,office_id" :=
  ⟨(upsert_natural_key _).1
     (JVal.str "2024-01-01", JVal.num 1, JVal.num 2, JVal.num 3),
   by decide,
   (upsert_natural_key _).2.2.2⟩

end WbSync
